import Mathlib

/-!
Verification of the congestion-window control modules `reno_abc.c` and
`reno_fair.c` (Linux TCP congestion-control strategies).  The per-connection
state and the strategy operations are shallowly embedded: every `u32` field
is a `Nat` reduced modulo `2 ^ 32` at each arithmetic step, and an operation
that would execute a machine division by zero returns `none`.
-/

/-- `2 ^ 32`, the modulus of all `u32` arithmetic. -/
def u32mod : Nat := 4294967296

/-- Reduce a value modulo `2 ^ 32`, as every `u32` store does. -/
def wrap (x : Nat) : Nat := x % u32mod

/-- Wrapping `u32` subtraction (two's complement). -/
def usub (a b : Nat) : Nat := (u32mod + a % u32mod - b % u32mod) % u32mod

/-- The fields of `struct tcp_sock` read or written by the two modules.
`is_cwnd_limited` stands for the externally computed result of
`tcp_is_cwnd_limited(sk)`. -/
structure tcp_sock where
  snd_cwnd : Nat
  snd_ssthresh : Nat
  snd_cwnd_cnt : Nat
  snd_cwnd_clamp : Nat
  mss_cache : Nat
  srtt_us : Nat
  prior_cwnd : Nat
  is_cwnd_limited : Bool
deriving DecidableEq, Repr

/-- `TCP_INFINITE_SSTHRESH` (`0x7FFFFFFF`). -/
def TCP_INFINITE_SSTHRESH : Nat := 2147483647

/-- The final `min(tp->snd_cwnd, tp->snd_cwnd_clamp)` store. -/
def clampCwnd (tp : tcp_sock) : tcp_sock :=
  { tp with snd_cwnd := min tp.snd_cwnd tp.snd_cwnd_clamp }

/-- Kernel helper `tcp_cong_avoid_ai` (net/ipv4/tcp_cong.c): the standard
linear-increase credit accumulator.  `none` models the machine trap of
`snd_cwnd_cnt / w` with `w = 0`. -/
def tcp_cong_avoid_ai (tp : tcp_sock) (w acked : Nat) : Option tcp_sock :=
  let cwnd1 := if w ≤ tp.snd_cwnd_cnt then wrap (tp.snd_cwnd + 1) else tp.snd_cwnd
  let cnt1 := if w ≤ tp.snd_cwnd_cnt then 0 else tp.snd_cwnd_cnt
  let cnt2 := wrap (cnt1 + acked)
  if w ≤ cnt2 then
    if w = 0 then none
    else
      some { tp with snd_cwnd := min (wrap (cwnd1 + cnt2 / w)) tp.snd_cwnd_clamp,
                     snd_cwnd_cnt := cnt2 - cnt2 / w * w }
  else
    some { tp with snd_cwnd := min cwnd1 tp.snd_cwnd_clamp, snd_cwnd_cnt := cnt2 }

/-- Kernel helper `tcp_slow_start` (net/ipv4/tcp_cong.c): exponential
byte-based slow-start growth; returns the updated state and the leftover
`acked`. -/
def tcp_slow_start (tp : tcp_sock) (acked : Nat) : tcp_sock × Nat :=
  let cwnd := min (wrap (tp.snd_cwnd + acked)) tp.snd_ssthresh
  let acked2 := usub acked (usub cwnd tp.snd_cwnd)
  ({ tp with snd_cwnd := min cwnd tp.snd_cwnd_clamp }, acked2)

/-- `tcp_reno_abc_init` from reno_abc.c. -/
def tcp_reno_abc_init (tp : tcp_sock) : tcp_sock :=
  { tp with snd_ssthresh := TCP_INFINITE_SSTHRESH, snd_cwnd := 1 }

/-- `tcp_reno_abc_ssthresh` from reno_abc.c: `max(snd_cwnd >> 1, 2)`. -/
def tcp_reno_abc_ssthresh (tp : tcp_sock) : Nat :=
  max (tp.snd_cwnd >>> 1) 2

/-- The `u32 target = w * tp->mss_cache` computation of reno_abc.c's
congestion-avoidance branch (u32 multiplication, hence wrapped). -/
def abc_target (tp : tcp_sock) : Nat := wrap (tp.snd_cwnd * tp.mss_cache)

/-- The slow-start increment of reno_abc.c:
`u32 delta = acked / tp->mss_cache; if (delta == 0) delta = 1;`. -/
def abc_ss_delta (tp : tcp_sock) (acked : Nat) : Nat :=
  if acked / tp.mss_cache = 0 then 1 else acked / tp.mss_cache

/-- `tcp_reno_abc_cong_avoid` from reno_abc.c.  `none` models the machine
trap of `acked / tp->mss_cache` or `acked / target` with a zero divisor. -/
def tcp_reno_abc_cong_avoid (tp : tcp_sock) (ack acked : Nat) : Option tcp_sock :=
  if tp.is_cwnd_limited = false then some tp
  else if tp.snd_cwnd ≤ tp.snd_ssthresh then
    if tp.mss_cache = 0 then none
    else some (clampCwnd { tp with snd_cwnd := wrap (tp.snd_cwnd + abc_ss_delta tp acked) })
  else
    if abc_target tp ≤ acked then
      if abc_target tp = 0 then none
      else some (clampCwnd { tp with snd_cwnd := wrap (tp.snd_cwnd + acked / abc_target tp) })
    else
      Option.map clampCwnd (tcp_cong_avoid_ai tp tp.snd_cwnd acked)

/-- `tcp_reno_abc_undo_cwnd` from reno_abc.c. -/
def tcp_reno_abc_undo_cwnd (tp : tcp_sock) : Nat :=
  max tp.snd_cwnd tp.prior_cwnd

/-- `BASE_RTT_US` from reno_fair.c (10ms in microseconds). -/
def BASE_RTT_US : Nat := 10000

/-- `tcp_fair_init` from reno_fair.c. -/
def tcp_fair_init (tp : tcp_sock) : tcp_sock :=
  { tp with snd_ssthresh := TCP_INFINITE_SSTHRESH, snd_cwnd := 1 }

/-- `tcp_fair_ssthresh` from reno_fair.c: `max(snd_cwnd >> 1, 2)`. -/
def tcp_fair_ssthresh (tp : tcp_sock) : Nat :=
  max (tp.snd_cwnd >>> 1) 2

/-- `u32 current_rtt_us = tp->srtt_us >> 3` from reno_fair.c. -/
def fair_current_rtt (tp : tcp_sock) : Nat := tp.srtt_us >>> 3

/-- The `rtt_ratio` computation of reno_fair.c: `current_rtt_us / BASE_RTT_US`
when `current_rtt_us > BASE_RTT_US`, else 1. -/
def rtt_ratio (tp : tcp_sock) : Nat :=
  if BASE_RTT_US < fair_current_rtt tp then fair_current_rtt tp / BASE_RTT_US else 1

/-- The acknowledged-byte count `acked * rtt_ratio` (u32 multiplication)
that reno_fair.c passes to `tcp_cong_avoid_ai`. -/
def fair_scaled_acked (tp : tcp_sock) (acked : Nat) : Nat :=
  wrap (acked * rtt_ratio tp)

/-- `tcp_fair_cong_avoid` from reno_fair.c. -/
def tcp_fair_cong_avoid (tp : tcp_sock) (ack acked : Nat) : Option tcp_sock :=
  if tp.is_cwnd_limited = false then some tp
  else if tp.snd_cwnd ≤ tp.snd_ssthresh then
    if (tcp_slow_start tp acked).2 = 0 then some (tcp_slow_start tp acked).1
    else some (clampCwnd (tcp_slow_start tp acked).1)
  else
    Option.map clampCwnd (tcp_cong_avoid_ai tp tp.snd_cwnd (fair_scaled_acked tp acked))

/-- `tcp_fair_undo_cwnd` from reno_fair.c: returns `snd_cwnd` unchanged. -/
def tcp_fair_undo_cwnd (tp : tcp_sock) : Nat := tp.snd_cwnd

/-- One `OnAcknowledge` event: which variant is driven, and the `ack` and
`acked` arguments. -/
structure AckCall where
  useAbc : Bool
  ack : Nat
  acked : Nat
deriving DecidableEq, Repr

/-- Dispatch one `OnAcknowledge` call to the chosen variant. -/
def stepCall (tp : tcp_sock) (c : AckCall) : Option tcp_sock :=
  if c.useAbc then tcp_reno_abc_cong_avoid tp c.ack c.acked
  else tcp_fair_cong_avoid tp c.ack c.acked

/-- Run a sequence of `OnAcknowledge` calls. -/
def runCalls (tp : tcp_sock) : List AckCall → Option tcp_sock
  | [] => some tp
  | c :: cs =>
    match stepCall tp c with
    | none => none
    | some tp1 => runCalls tp1 cs

/-- Sufficient no-trap / no-overflow side condition for one reno_abc call:
nonzero divisors and no `u32` wraparound in the window additions. -/
def okAbc (tp : tcp_sock) (acked : Nat) : Bool :=
  decide (tp.mss_cache ≠ 0) && decide (abc_target tp ≠ 0) &&
    decide (tp.snd_cwnd + tp.snd_cwnd_cnt + acked + 1 < u32mod)

/-- Sufficient no-overflow side condition for one reno_fair call. -/
def okFair (tp : tcp_sock) (acked : Nat) : Bool :=
  decide (tp.snd_cwnd + tp.snd_cwnd_cnt + acked * rtt_ratio tp + 1 < u32mod)

/-- Side condition for one dispatched call. -/
def okCall (tp : tcp_sock) (c : AckCall) : Bool :=
  if c.useAbc then okAbc tp c.acked else okFair tp c.acked

/-- Every call of the sequence satisfies its side condition on the state it
actually runs on. -/
def okRun (tp : tcp_sock) : List AckCall → Bool
  | [] => true
  | c :: cs =>
    okCall tp c &&
      (match stepCall tp c with
       | none => false
       | some tp1 => okRun tp1 cs)

/-- The four-operation strategy contract (`struct tcp_congestion_ops` as used
by these modules), together with the registered name. -/
structure tcp_congestion_ops where
  name : String
  init : tcp_sock → tcp_sock
  ssthresh : tcp_sock → Nat
  cong_avoid : tcp_sock → Nat → Nat → Option tcp_sock
  undo_cwnd : tcp_sock → Nat

/-- The `tcp_reno_abc` ops record registered by reno_abc.c under the name
"reno_abc". -/
def tcp_reno_abc : tcp_congestion_ops :=
  ⟨"reno_abc", tcp_reno_abc_init, tcp_reno_abc_ssthresh,
   tcp_reno_abc_cong_avoid, tcp_reno_abc_undo_cwnd⟩

/-- The `tcp_reno_fair` ops record registered by reno_fair.c under the name
"reno_fair". -/
def tcp_reno_fair : tcp_congestion_ops :=
  ⟨"reno_fair", tcp_fair_init, tcp_fair_ssthresh,
   tcp_fair_cong_avoid, tcp_fair_undo_cwnd⟩

/-- Modelled from the spec: the shared shape of the five RTT-fairness
variants whose source files are not present (only reno_fair, the basic one,
is).  Slow start delegates to the standard exponential growth, congestion
avoidance feeds an adjusted (effective window, effective acked) pair to the
linear-increase accumulator, and the result is clamped. -/
def spec_fair_template (adjust : tcp_sock → Nat → Nat × Nat)
    (tp : tcp_sock) (ack acked : Nat) : Option tcp_sock :=
  if tp.is_cwnd_limited = false then some tp
  else if tp.snd_cwnd ≤ tp.snd_ssthresh then
    let p := tcp_slow_start tp acked
    if p.2 = 0 then some p.1 else some (clampCwnd p.1)
  else
    let wa := adjust tp acked
    Option.map clampCwnd (tcp_cong_avoid_ai tp wa.1 wa.2)

/-- Modelled from the spec: the Final/Stable variant uses a fixed ratio 2
when `current_rtt > base_rtt` (10ms). -/
def spec_final_adjust (tp : tcp_sock) (acked : Nat) : Nat × Nat :=
  if BASE_RTT_US < fair_current_rtt tp then (tp.snd_cwnd, wrap (acked * 2))
  else (tp.snd_cwnd, acked)

/-- Modelled from the spec: the Gentle variant uses
`ratio = min(1 + raw/6, 4)` with `raw = current_rtt / base_rtt`. -/
def spec_gentle_adjust (tp : tcp_sock) (acked : Nat) : Nat × Nat :=
  if BASE_RTT_US < fair_current_rtt tp then
    (tp.snd_cwnd, wrap (acked * min (1 + fair_current_rtt tp / BASE_RTT_US / 6) 4))
  else (tp.snd_cwnd, acked)

/-- Modelled from the spec: the Tuned variant uses
`ratio = min((raw + 1)/2, 10)` with `raw = current_rtt / base_rtt`. -/
def spec_tuned_adjust (tp : tcp_sock) (acked : Nat) : Nat × Nat :=
  if BASE_RTT_US < fair_current_rtt tp then
    (tp.snd_cwnd, wrap (acked * min ((fair_current_rtt tp / BASE_RTT_US + 1) / 2) 10))
  else (tp.snd_cwnd, acked)

/-- Modelled from the spec: the Penalty variant (base 20ms) throttles fast
connections with an inflated effective window `cwnd * 10`. -/
def spec_penalty_adjust (tp : tcp_sock) (acked : Nat) : Nat × Nat :=
  if fair_current_rtt tp < 20000 then (wrap (tp.snd_cwnd * 10), acked)
  else (tp.snd_cwnd, acked)

/-- Modelled from the spec: the Balanced variant (split at 20ms) halves the
growth rate below threshold and doubles it at/above. -/
def spec_balanced_adjust (tp : tcp_sock) (acked : Nat) : Nat × Nat :=
  if fair_current_rtt tp < 20000 then (wrap (tp.snd_cwnd * 2), acked)
  else (tp.snd_cwnd, wrap (acked * 2))

/-- Modelled from the spec: the Final/Stable ops record.  The registered name
string is not in src, so the spec's variant label is used. -/
def spec_fair_final : tcp_congestion_ops :=
  ⟨"Final/Stable", tcp_fair_init, tcp_fair_ssthresh,
   spec_fair_template spec_final_adjust, tcp_fair_undo_cwnd⟩

/-- Modelled from the spec: the Gentle ops record. -/
def spec_fair_gentle : tcp_congestion_ops :=
  ⟨"Gentle", tcp_fair_init, tcp_fair_ssthresh,
   spec_fair_template spec_gentle_adjust, tcp_fair_undo_cwnd⟩

/-- Modelled from the spec: the Tuned ops record. -/
def spec_fair_tuned : tcp_congestion_ops :=
  ⟨"Tuned", tcp_fair_init, tcp_fair_ssthresh,
   spec_fair_template spec_tuned_adjust, tcp_fair_undo_cwnd⟩

/-- Modelled from the spec: the Penalty ops record. -/
def spec_fair_penalty : tcp_congestion_ops :=
  ⟨"Penalty", tcp_fair_init, tcp_fair_ssthresh,
   spec_fair_template spec_penalty_adjust, tcp_fair_undo_cwnd⟩

/-- Modelled from the spec: the Balanced ops record. -/
def spec_fair_balanced : tcp_congestion_ops :=
  ⟨"Balanced", tcp_fair_init, tcp_fair_ssthresh,
   spec_fair_template spec_balanced_adjust, tcp_fair_undo_cwnd⟩

/-- The seven registered strategy variants: the two present in src and the
five modelled from the spec. -/
def allStrategies : List tcp_congestion_ops :=
  [tcp_reno_abc, tcp_reno_fair, spec_fair_final, spec_fair_gentle,
   spec_fair_tuned, spec_fair_penalty, spec_fair_balanced]

/-- A slow-start state with `mss_cache = 0`: window-limited, `cwnd = 1`,
`ssthresh = 10`. -/
def mssZeroState : tcp_sock := ⟨1, 10, 0, 100, 0, 0, 0, true⟩

/-- C4: the claim (and section 7 of the spec) requires division by `mss` to
short-circuit to the minimum increment when the divisor is zero, but
`tcp_reno_abc_cong_avoid` has no such guard: with `mss_cache = 0` it executes
`acked / tp->mss_cache`, an unguarded u32 division by zero (modelled as
`none`).  This theorem evaluates the code at the failing input. -/
theorem c4_div_by_zero_trap :
    tcp_reno_abc_cong_avoid mssZeroState 0 1000 = none := by decide

/-- C6: both variants' `SlowStartThreshold` returns exactly
`max(cwnd / 2, 2)` and never a value below 2, for every state (hence for
`cwnd` equal to 1, 2, 3, 4, 100 and 4294967294 in particular); both are pure
functions of the state by construction. -/
theorem c6_ssthresh_halving (tp : tcp_sock) :
    tcp_reno_abc_ssthresh tp = max (tp.snd_cwnd / 2) 2 ∧
    tcp_fair_ssthresh tp = max (tp.snd_cwnd / 2) 2 ∧
    2 ≤ tcp_reno_abc_ssthresh tp ∧ 2 ≤ tcp_fair_ssthresh tp := by
  have h : tp.snd_cwnd >>> 1 = tp.snd_cwnd / 2 := by
    rw [Nat.shiftRight_eq_div_pow]
  refine ⟨?_, ?_, ?_, ?_⟩
  · simp [tcp_reno_abc_ssthresh, h]
  · simp [tcp_fair_ssthresh, h]
  · exact le_max_right (tp.snd_cwnd >>> 1) 2
  · exact le_max_right (tp.snd_cwnd >>> 1) 2

/-- C7: when the connection is not window-limited, both variants'
`OnAcknowledge` returns immediately and the whole state is unchanged,
whatever `ack` and `acked` are. -/
theorem c7_not_limited_noop (tp : tcp_sock) (ack acked : Nat)
    (h : tp.is_cwnd_limited = false) :
    tcp_reno_abc_cong_avoid tp ack acked = some tp ∧
    tcp_fair_cong_avoid tp ack acked = some tp := by
  constructor
  · simp [tcp_reno_abc_cong_avoid, h]
  · simp [tcp_fair_cong_avoid, h]

/-- A concrete non-window-limited state for the C7 witness. -/
def notLimitedState : tcp_sock := ⟨7, 3, 5, 50, 1460, 80000, 9, false⟩

/-- C7 witness: the no-op property at a concrete state and arguments. -/
theorem c7_not_limited_noop_witness :
    tcp_reno_abc_cong_avoid notLimitedState 42 99999 = some notLimitedState ∧
    tcp_fair_cong_avoid notLimitedState 42 99999 = some notLimitedState :=
  c7_not_limited_noop notLimitedState 42 99999 (by decide)

/-- C8: the base ABC variant's undo returns exactly
`max(cwnd, prior_cwnd)` — never below the pre-event window `prior_cwnd` —
while the RTT-fairness variant's undo returns `cwnd` unchanged, ignoring
`prior_cwnd`; both are pure functions of the state by construction. -/
theorem c8_undo_cwnd (tp : tcp_sock) :
    tcp_reno_abc_undo_cwnd tp = max tp.snd_cwnd tp.prior_cwnd ∧
    tp.prior_cwnd ≤ tcp_reno_abc_undo_cwnd tp ∧
    tp.snd_cwnd ≤ tcp_reno_abc_undo_cwnd tp ∧
    tcp_fair_undo_cwnd tp = tp.snd_cwnd := by
  refine ⟨rfl, ?_, ?_, rfl⟩
  · exact le_max_right tp.snd_cwnd tp.prior_cwnd
  · exact le_max_left tp.snd_cwnd tp.prior_cwnd

/-- C9: the system provides seven concrete strategy variants (each a record
of pure functions over `tcp_sock`), and their registered names are pairwise
distinct.  Only `reno_abc` and `reno_fair` are present in src; the other five
are modelled from the spec. -/
theorem c9_seven_variants :
    List.length allStrategies = 7 ∧
    List.Nodup (List.map tcp_congestion_ops.name allStrategies) := by
  constructor
  · rfl
  · decide

/-- A congestion-avoidance state whose `cwnd * mss` product overflows u32:
`3 * 2863311531 = 2 * 2^32 + 1`, so the wrapped target is 1. -/
def wrapDemoState : tcp_sock := ⟨3, 2, 0, 1000, 2863311531, 0, 0, true⟩

/-- C10: window arithmetic is u32: the ABC target and the RTT-Fair scaled
acked count are computed modulo `2^32`.  At `wrapDemoState` the true product
`cwnd * mss = 8589934593` exceeds `2^32`, the computed target is the residue
1 (not the product), and the call therefore takes the `acked >= target`
branch with `acked = 7`, growing `cwnd` from 3 to 10. -/
theorem c10_u32_wraparound (tp : tcp_sock) (acked : Nat) :
    abc_target tp = tp.snd_cwnd * tp.mss_cache % u32mod ∧
    fair_scaled_acked tp acked = acked * rtt_ratio tp % u32mod ∧
    abc_target wrapDemoState = 1 ∧
    wrapDemoState.snd_cwnd * wrapDemoState.mss_cache = 8589934593 ∧
    Option.map tcp_sock.snd_cwnd (tcp_reno_abc_cong_avoid wrapDemoState 0 7) =
      some 10 := by
  refine ⟨rfl, rfl, by decide, by decide, by decide⟩

/-- A wrapped value below the modulus is itself. -/
theorem wrap_eq_of_lt {x : Nat} (h : x < u32mod) : wrap x = x := Nat.mod_eq_of_lt h

/-- `tcp_cong_avoid_ai` with a positive alternative window, a positive
in-range window and no `u32` overflow succeeds and keeps the (pre-clamp)
window positive and clamped; the clamp and threshold fields are untouched. -/
theorem tcp_cong_avoid_ai_inv (tp : tcp_sock) (w a : Nat)
    (hw : 0 < w) (hc : 0 < tp.snd_cwnd) (hclamp : 0 < tp.snd_cwnd_clamp)
    (hnw : tp.snd_cwnd + tp.snd_cwnd_cnt + a + 1 < u32mod) :
    ∃ tp', tcp_cong_avoid_ai tp w a = some tp' ∧ 0 < tp'.snd_cwnd ∧
      tp'.snd_cwnd ≤ tp'.snd_cwnd_clamp ∧
      tp'.snd_cwnd_clamp = tp.snd_cwnd_clamp ∧
      tp'.snd_ssthresh = tp.snd_ssthresh := by
  unfold tcp_cong_avoid_ai
  rcases le_or_lt w tp.snd_cwnd_cnt with h1 | h1
  · simp only [if_pos h1, Nat.zero_add]
    rw [wrap_eq_of_lt (show tp.snd_cwnd + 1 < u32mod by omega),
        wrap_eq_of_lt (show a < u32mod by omega)]
    by_cases h2 : w ≤ a
    · rw [if_pos h2, if_neg (Nat.pos_iff_ne_zero.mp hw)]
      have hd : a / w ≤ a := Nat.div_le_self a w
      rw [wrap_eq_of_lt (show tp.snd_cwnd + 1 + a / w < u32mod by omega)]
      exact ⟨_, rfl, by simp; omega, by simp, by simp, by simp⟩
    · rw [if_neg h2]
      exact ⟨_, rfl, by simp; omega, by simp, by simp, by simp⟩
  · simp only [if_neg (Nat.not_le.mpr h1)]
    rw [wrap_eq_of_lt (show tp.snd_cwnd_cnt + a < u32mod by omega)]
    by_cases h2 : w ≤ tp.snd_cwnd_cnt + a
    · rw [if_pos h2, if_neg (Nat.pos_iff_ne_zero.mp hw)]
      have hd : (tp.snd_cwnd_cnt + a) / w ≤ tp.snd_cwnd_cnt + a :=
        Nat.div_le_self (tp.snd_cwnd_cnt + a) w
      rw [wrap_eq_of_lt
        (show tp.snd_cwnd + (tp.snd_cwnd_cnt + a) / w < u32mod by omega)]
      exact ⟨_, rfl, by simp; omega, by simp, by simp, by simp⟩
    · rw [if_neg h2]
      exact ⟨_, rfl, by simp; omega, by simp, by simp, by simp⟩

/-- Every successful `tcp_cong_avoid_ai` call leaves the window clamped and
the clamp and threshold fields untouched (no overflow hypothesis needed:
every exit stores `min(snd_cwnd, snd_cwnd_clamp)`). -/
theorem tcp_cong_avoid_ai_clamp (tp : tcp_sock) (w a : Nat) (tp' : tcp_sock)
    (h : tcp_cong_avoid_ai tp w a = some tp') :
    tp'.snd_cwnd ≤ tp'.snd_cwnd_clamp ∧
    tp'.snd_cwnd_clamp = tp.snd_cwnd_clamp ∧
    tp'.snd_ssthresh = tp.snd_ssthresh := by
  unfold tcp_cong_avoid_ai at h
  rcases le_or_lt w tp.snd_cwnd_cnt with h1 | h1
  · simp only [if_pos h1] at h
    split_ifs at h with h2 h3
    · obtain rfl := Option.some.inj h
      exact ⟨by simp, by simp, by simp⟩
    · obtain rfl := Option.some.inj h
      exact ⟨by simp, by simp, by simp⟩
  · simp only [if_neg (Nat.not_le.mpr h1)] at h
    split_ifs at h with h2 h3
    · obtain rfl := Option.some.inj h
      exact ⟨by simp, by simp, by simp⟩
    · obtain rfl := Option.some.inj h
      exact ⟨by simp, by simp, by simp⟩

/-- `tcp_slow_start` keeps the window clamped unconditionally, keeps it
positive when the addition does not wrap, and leaves the clamp untouched. -/
theorem tcp_slow_start_inv (tp : tcp_sock) (acked : Nat)
    (h1 : 0 < tp.snd_cwnd) (hclamp : 0 < tp.snd_cwnd_clamp)
    (hss : tp.snd_cwnd ≤ tp.snd_ssthresh)
    (hnw : tp.snd_cwnd + acked < u32mod) :
    0 < (tcp_slow_start tp acked).1.snd_cwnd ∧
    (tcp_slow_start tp acked).1.snd_cwnd ≤ (tcp_slow_start tp acked).1.snd_cwnd_clamp ∧
    (tcp_slow_start tp acked).1.snd_cwnd_clamp = tp.snd_cwnd_clamp := by
  unfold tcp_slow_start
  rw [wrap_eq_of_lt hnw]
  refine ⟨?_, ?_, rfl⟩
  · show 0 < min (min (tp.snd_cwnd + acked) tp.snd_ssthresh) tp.snd_cwnd_clamp
    omega
  · show min (min (tp.snd_cwnd + acked) tp.snd_ssthresh) tp.snd_cwnd_clamp ≤
      tp.snd_cwnd_clamp
    omega

/-- `tcp_slow_start` keeps the window clamped and the clamp untouched, with
no side condition (the store is `min(cwnd, snd_cwnd_clamp)`). -/
theorem tcp_slow_start_clamp (tp : tcp_sock) (acked : Nat) :
    (tcp_slow_start tp acked).1.snd_cwnd ≤ (tcp_slow_start tp acked).1.snd_cwnd_clamp ∧
    (tcp_slow_start tp acked).1.snd_cwnd_clamp = tp.snd_cwnd_clamp := by
  unfold tcp_slow_start
  refine ⟨?_, rfl⟩
  show min (min (wrap (tp.snd_cwnd + acked)) tp.snd_ssthresh) tp.snd_cwnd_clamp ≤
    tp.snd_cwnd_clamp
  omega

/-- One successful `tcp_reno_abc_cong_avoid` call keeps the window within the
clamp and never touches the clamp field. -/
theorem abc_step_clamp (tp : tcp_sock) (ack acked : Nat) (tp' : tcp_sock)
    (h2 : tp.snd_cwnd ≤ tp.snd_cwnd_clamp)
    (h : tcp_reno_abc_cong_avoid tp ack acked = some tp') :
    tp'.snd_cwnd ≤ tp'.snd_cwnd_clamp ∧ tp'.snd_cwnd_clamp = tp.snd_cwnd_clamp := by
  unfold tcp_reno_abc_cong_avoid at h
  split_ifs at h with hlim hss hmss htar htgt
  · obtain rfl := Option.some.inj h
    exact ⟨h2, rfl⟩
  · obtain rfl := Option.some.inj h
    exact ⟨by simp [clampCwnd], by simp [clampCwnd]⟩
  · obtain rfl := Option.some.inj h
    exact ⟨by simp [clampCwnd], by simp [clampCwnd]⟩
  · rcases hai : tcp_cong_avoid_ai tp tp.snd_cwnd acked with _ | tp1
    · rw [hai] at h
      exact absurd h (by simp)
    · rw [hai] at h
      obtain rfl := Option.some.inj h
      obtain ⟨ha, hb, hc⟩ := tcp_cong_avoid_ai_clamp tp tp.snd_cwnd acked tp1 hai
      exact ⟨by simp [clampCwnd], by simp [clampCwnd, hb]⟩

/-- One successful `tcp_fair_cong_avoid` call keeps the window within the
clamp and never touches the clamp field. -/
theorem fair_step_clamp (tp : tcp_sock) (ack acked : Nat) (tp' : tcp_sock)
    (h2 : tp.snd_cwnd ≤ tp.snd_cwnd_clamp)
    (h : tcp_fair_cong_avoid tp ack acked = some tp') :
    tp'.snd_cwnd ≤ tp'.snd_cwnd_clamp ∧ tp'.snd_cwnd_clamp = tp.snd_cwnd_clamp := by
  unfold tcp_fair_cong_avoid at h
  split_ifs at h with hlim hss hz
  · obtain rfl := Option.some.inj h
    exact ⟨h2, rfl⟩
  · obtain rfl := Option.some.inj h
    obtain ⟨ha, hb⟩ := tcp_slow_start_clamp tp acked
    exact ⟨ha, hb⟩
  · obtain rfl := Option.some.inj h
    obtain ⟨ha, hb⟩ := tcp_slow_start_clamp tp acked
    exact ⟨by simp [clampCwnd], by simp [clampCwnd, hb]⟩
  · rcases hai : tcp_cong_avoid_ai tp tp.snd_cwnd (fair_scaled_acked tp acked)
      with _ | tp1
    · rw [hai] at h
      exact absurd h (by simp)
    · rw [hai] at h
      obtain rfl := Option.some.inj h
      obtain ⟨ha, hb, hc⟩ :=
        tcp_cong_avoid_ai_clamp tp tp.snd_cwnd (fair_scaled_acked tp acked) tp1 hai
      exact ⟨by simp [clampCwnd], by simp [clampCwnd, hb]⟩

/-- One `tcp_reno_abc_cong_avoid` call on a well-formed state whose side
condition holds succeeds and preserves `1 ≤ cwnd ≤ cwnd_clamp`. -/
theorem abc_step_inv (tp : tcp_sock) (ack acked : Nat)
    (h1 : 0 < tp.snd_cwnd) (h2 : tp.snd_cwnd ≤ tp.snd_cwnd_clamp)
    (hok : okAbc tp acked = true) :
    ∃ tp', tcp_reno_abc_cong_avoid tp ack acked = some tp' ∧
      0 < tp'.snd_cwnd ∧ tp'.snd_cwnd ≤ tp'.snd_cwnd_clamp ∧
      tp'.snd_cwnd_clamp = tp.snd_cwnd_clamp := by
  have hclamp : 0 < tp.snd_cwnd_clamp := lt_of_lt_of_le h1 h2
  have hok' : (tp.mss_cache ≠ 0 ∧ abc_target tp ≠ 0) ∧
      tp.snd_cwnd + tp.snd_cwnd_cnt + acked + 1 < u32mod := by
    simpa [okAbc] using hok
  obtain ⟨⟨hmss, htgt⟩, hnw⟩ := hok'
  unfold tcp_reno_abc_cong_avoid
  by_cases hlim : tp.is_cwnd_limited = false
  · rw [if_pos hlim]
    exact ⟨tp, rfl, h1, h2, rfl⟩
  · rw [if_neg hlim]
    by_cases hss : tp.snd_cwnd ≤ tp.snd_ssthresh
    · rw [if_pos hss, if_neg hmss]
      have hdle : abc_ss_delta tp acked ≤ acked + 1 := by
        unfold abc_ss_delta
        have := Nat.div_le_self acked tp.mss_cache
        split <;> omega
      have hdpos : 0 < abc_ss_delta tp acked := by
        unfold abc_ss_delta
        split
        · omega
        · rename_i hne
          exact Nat.pos_of_ne_zero hne
      rw [wrap_eq_of_lt (show tp.snd_cwnd + abc_ss_delta tp acked < u32mod by omega)]
      refine ⟨_, rfl, ?_, ?_, ?_⟩
      · show 0 < min (tp.snd_cwnd + abc_ss_delta tp acked) tp.snd_cwnd_clamp
        exact lt_min (Nat.lt_of_lt_of_le h1 (Nat.le_add_right _ _)) hclamp
      · show min (tp.snd_cwnd + abc_ss_delta tp acked) tp.snd_cwnd_clamp ≤
          tp.snd_cwnd_clamp
        exact Nat.min_le_right _ _
      · rfl
    · rw [if_neg hss]
      by_cases htar : abc_target tp ≤ acked
      · rw [if_pos htar, if_neg htgt]
        have hq : acked / abc_target tp ≤ acked := Nat.div_le_self acked (abc_target tp)
        rw [wrap_eq_of_lt (show tp.snd_cwnd + acked / abc_target tp < u32mod by omega)]
        refine ⟨_, rfl, ?_, ?_, ?_⟩
        · show 0 < min (tp.snd_cwnd + acked / abc_target tp) tp.snd_cwnd_clamp
          exact lt_min (Nat.lt_of_lt_of_le h1 (Nat.le_add_right _ _)) hclamp
        · show min (tp.snd_cwnd + acked / abc_target tp) tp.snd_cwnd_clamp ≤
            tp.snd_cwnd_clamp
          exact Nat.min_le_right _ _
        · rfl
      · rw [if_neg htar]
        obtain ⟨tp1, hai, hai1, hai2, hai3, hai4⟩ :=
          tcp_cong_avoid_ai_inv tp tp.snd_cwnd acked h1 h1 hclamp hnw
        rw [hai]
        refine ⟨clampCwnd tp1, rfl, ?_, ?_, ?_⟩
        · show 0 < min tp1.snd_cwnd tp1.snd_cwnd_clamp
          omega
        · show min tp1.snd_cwnd tp1.snd_cwnd_clamp ≤ tp1.snd_cwnd_clamp
          omega
        · show tp1.snd_cwnd_clamp = tp.snd_cwnd_clamp
          exact hai3

/-- One `tcp_fair_cong_avoid` call on a well-formed state whose side
condition holds succeeds and preserves `1 ≤ cwnd ≤ cwnd_clamp`. -/
theorem fair_step_inv (tp : tcp_sock) (ack acked : Nat)
    (h1 : 0 < tp.snd_cwnd) (h2 : tp.snd_cwnd ≤ tp.snd_cwnd_clamp)
    (hok : okFair tp acked = true) :
    ∃ tp', tcp_fair_cong_avoid tp ack acked = some tp' ∧
      0 < tp'.snd_cwnd ∧ tp'.snd_cwnd ≤ tp'.snd_cwnd_clamp ∧
      tp'.snd_cwnd_clamp = tp.snd_cwnd_clamp := by
  have hclamp : 0 < tp.snd_cwnd_clamp := lt_of_lt_of_le h1 h2
  have hnw : tp.snd_cwnd + tp.snd_cwnd_cnt + acked * rtt_ratio tp + 1 < u32mod := by
    simpa [okFair] using hok
  have hratio : 0 < rtt_ratio tp := by
    unfold rtt_ratio
    split
    · rename_i hgt
      have : 0 < BASE_RTT_US := by norm_num [BASE_RTT_US]
      exact Nat.div_pos (le_of_lt hgt) this
    · omega
  have hacked_le : acked ≤ acked * rtt_ratio tp := by
    calc acked = acked * 1 := (Nat.mul_one acked).symm
    _ ≤ acked * rtt_ratio tp := Nat.mul_le_mul_left acked hratio
  unfold tcp_fair_cong_avoid
  by_cases hlim : tp.is_cwnd_limited = false
  · rw [if_pos hlim]
    exact ⟨tp, rfl, h1, h2, rfl⟩
  · rw [if_neg hlim]
    by_cases hss : tp.snd_cwnd ≤ tp.snd_ssthresh
    · rw [if_pos hss]
      obtain ⟨ha, hb, hc⟩ := tcp_slow_start_inv tp acked h1 hclamp hss
        (show tp.snd_cwnd + acked < u32mod by omega)
      by_cases hz : (tcp_slow_start tp acked).2 = 0
      · rw [if_pos hz]
        exact ⟨_, rfl, ha, by rw [hc] at hb; rw [hc]; exact hb, hc⟩
      · rw [if_neg hz]
        refine ⟨_, rfl, ?_, ?_, ?_⟩
        · show 0 < min (tcp_slow_start tp acked).1.snd_cwnd
            (tcp_slow_start tp acked).1.snd_cwnd_clamp
          rw [hc]
          omega
        · show min (tcp_slow_start tp acked).1.snd_cwnd
            (tcp_slow_start tp acked).1.snd_cwnd_clamp ≤
              (tcp_slow_start tp acked).1.snd_cwnd_clamp
          omega
        · show (tcp_slow_start tp acked).1.snd_cwnd_clamp = tp.snd_cwnd_clamp
          exact hc
    · rw [if_neg hss]
      have hsc : fair_scaled_acked tp acked ≤ acked * rtt_ratio tp :=
        Nat.mod_le (acked * rtt_ratio tp) u32mod
      obtain ⟨tp1, hai, hai1, hai2, hai3, hai4⟩ :=
        tcp_cong_avoid_ai_inv tp tp.snd_cwnd (fair_scaled_acked tp acked) h1 h1 hclamp
          (by omega)
      rw [hai]
      refine ⟨clampCwnd tp1, rfl, ?_, ?_, ?_⟩
      · show 0 < min tp1.snd_cwnd tp1.snd_cwnd_clamp
        omega
      · show min tp1.snd_cwnd tp1.snd_cwnd_clamp ≤ tp1.snd_cwnd_clamp
        omega
      · show tp1.snd_cwnd_clamp = tp.snd_cwnd_clamp
        exact hai3

/-- Dispatch version of the clamp-preservation lemma. -/
theorem stepCall_clamp (tp : tcp_sock) (c : AckCall) (tp' : tcp_sock)
    (h2 : tp.snd_cwnd ≤ tp.snd_cwnd_clamp) (h : stepCall tp c = some tp') :
    tp'.snd_cwnd ≤ tp'.snd_cwnd_clamp ∧ tp'.snd_cwnd_clamp = tp.snd_cwnd_clamp := by
  unfold stepCall at h
  by_cases hb : c.useAbc
  · rw [if_pos hb] at h
    exact abc_step_clamp tp c.ack c.acked tp' h2 h
  · rw [if_neg hb] at h
    exact fair_step_clamp tp c.ack c.acked tp' h2 h

/-- Dispatch version of the invariant step lemma. -/
theorem stepCall_inv (tp : tcp_sock) (c : AckCall)
    (h1 : 0 < tp.snd_cwnd) (h2 : tp.snd_cwnd ≤ tp.snd_cwnd_clamp)
    (hok : okCall tp c = true) :
    ∃ tp', stepCall tp c = some tp' ∧ 0 < tp'.snd_cwnd ∧
      tp'.snd_cwnd ≤ tp'.snd_cwnd_clamp ∧ tp'.snd_cwnd_clamp = tp.snd_cwnd_clamp := by
  unfold stepCall okCall at *
  by_cases hb : c.useAbc
  · rw [if_pos hb] at hok ⊢
    exact abc_step_inv tp c.ack c.acked h1 h2 hok
  · rw [if_neg hb] at hok ⊢
    exact fair_step_inv tp c.ack c.acked h1 h2 hok

/-- C1 (amended): starting from a state whose window does not exceed the
clamp, after every successful sequence of `OnAcknowledge` calls (either
variant, any `bytes_acked`) the window still does not exceed the clamp; and
if moreover the window starts at least 1 and every call of the sequence
meets its no-trap / no-overflow side condition (`okRun`), the window is also
still at least 1.  The original unconditional lower bound is false: u32
wraparound can drive `cwnd` to 0 (see the counterexample). -/
theorem c1_cwnd_invariant (tp : tcp_sock) (cs : List AckCall) (tp' : tcp_sock)
    (h2 : tp.snd_cwnd ≤ tp.snd_cwnd_clamp)
    (hrun : runCalls tp cs = some tp') :
    tp'.snd_cwnd ≤ tp'.snd_cwnd_clamp ∧
    (0 < tp.snd_cwnd → okRun tp cs = true → 0 < tp'.snd_cwnd) := by
  induction cs generalizing tp
  case nil =>
    obtain rfl : tp = tp' := Option.some.inj hrun
    exact ⟨h2, fun hp _ => hp⟩
  case cons c cs ih =>
    unfold runCalls at hrun
    rcases hstep : stepCall tp c with _ | tp1
    · rw [hstep] at hrun
      exact absurd hrun (by simp)
    · rw [hstep] at hrun
      obtain ⟨ha, hb⟩ := stepCall_clamp tp c tp1 h2 hstep
      refine ⟨(ih tp1 ha hrun).1, ?_⟩
      intro hpos hok
      unfold okRun at hok
      rw [hstep] at hok
      rw [Bool.and_eq_true] at hok
      obtain ⟨hok1, hok2⟩ := hok
      obtain ⟨tp1', hs', hpos', hle', hcl'⟩ := stepCall_inv tp c hpos h2 hok1
      rw [hstep] at hs'
      obtain rfl : tp1 = tp1' := Option.some.inj hs'
      exact (ih tp1 ha hrun).2 hpos' hok2

/-- The C1 counterexample state: `cwnd = 3 ≤ cwnd_clamp = 100`, `ssthresh =
2` (congestion avoidance), window-limited, and `mss = 2863311531` so that
`target = wrap(3 * 2863311531) = 1`. -/
def c1CexState : tcp_sock := ⟨3, 2, 0, 100, 2863311531, 0, 0, true⟩

/-- C1 counterexample: the claim as stated (cwnd never falls below 1 for
every state and every `bytes_acked`) is false: one ABC call with
`bytes_acked = 4294967293` wraps `cwnd + acked/target = 3 + 4294967293`
around `2^32` to 0, leaving `cwnd = 0`. -/
theorem c1_counterexample :
    Option.map tcp_sock.snd_cwnd
      (tcp_reno_abc_cong_avoid c1CexState 0 4294967293) = some 0 := by decide

/-- The C1 witness start state: `cwnd = 5`, `ssthresh = 4`, `clamp = 20`,
`srtt_us = 1600000` (so `current_rtt = 200000`us). -/
def c1WitnessState : tcp_sock := ⟨5, 4, 0, 20, 1000, 1600000, 0, true⟩

/-- C1 witness: a concrete two-call sequence (one ABC call, one RTT-Fair
call) from a concrete well-formed state satisfies the side conditions and
ends with `1 ≤ cwnd ≤ cwnd_clamp`. -/
theorem c1_cwnd_invariant_witness :
    (runCalls c1WitnessState [⟨true, 0, 25000⟩, ⟨false, 0, 3⟩] =
        some ⟨16, 4, 0, 20, 1000, 1600000, 0, true⟩) ∧
    (⟨16, 4, 0, 20, 1000, 1600000, 0, true⟩ : tcp_sock).snd_cwnd ≤
      (⟨16, 4, 0, 20, 1000, 1600000, 0, true⟩ : tcp_sock).snd_cwnd_clamp ∧
    (0 < c1WitnessState.snd_cwnd →
      okRun c1WitnessState [⟨true, 0, 25000⟩, ⟨false, 0, 3⟩] = true →
        0 < (⟨16, 4, 0, 20, 1000, 1600000, 0, true⟩ : tcp_sock).snd_cwnd) := by
  refine ⟨by decide, ?_⟩
  exact c1_cwnd_invariant c1WitnessState [⟨true, 0, 25000⟩, ⟨false, 0, 3⟩]
    ⟨16, 4, 0, 20, 1000, 1600000, 0, true⟩ (by decide) (by decide)

/-- C2: in the RTT-Fair basic congestion-avoidance phase (window-limited,
`cwnd > ssthresh`) with `current_rtt = srtt >> 3 > 10000`us, the ratio is the
unbounded quotient `current_rtt / 10000`, the acknowledged-byte count passed
to `tcp_cong_avoid_ai` is `acked` times that ratio (when the u32 product
does not wrap), and for `current_rtt = 200000`us the ratio is exactly 20. -/
theorem c2_fair_basic_ratio (tp : tcp_sock) (ack acked : Nat)
    (hlim : tp.is_cwnd_limited = true)
    (hca : tp.snd_ssthresh < tp.snd_cwnd)
    (hrtt : BASE_RTT_US < fair_current_rtt tp)
    (hnw : acked * (fair_current_rtt tp / BASE_RTT_US) < u32mod) :
    rtt_ratio tp = fair_current_rtt tp / BASE_RTT_US ∧
    fair_scaled_acked tp acked = acked * (fair_current_rtt tp / BASE_RTT_US) ∧
    tcp_fair_cong_avoid tp ack acked =
      Option.map clampCwnd
        (tcp_cong_avoid_ai tp tp.snd_cwnd
          (acked * (fair_current_rtt tp / BASE_RTT_US))) ∧
    (fair_current_rtt tp = 200000 → rtt_ratio tp = 20) := by
  have hr : rtt_ratio tp = fair_current_rtt tp / BASE_RTT_US := by
    unfold rtt_ratio
    rw [if_pos hrtt]
  have hs : fair_scaled_acked tp acked =
      acked * (fair_current_rtt tp / BASE_RTT_US) := by
    unfold fair_scaled_acked
    rw [hr]
    exact wrap_eq_of_lt hnw
  refine ⟨hr, hs, ?_, ?_⟩
  · unfold tcp_fair_cong_avoid
    rw [if_neg (by simp [hlim]), if_neg (Nat.not_le.mpr hca), hs]
  · intro h200
    rw [hr, h200]
    norm_num [BASE_RTT_US]

/-- The C2 witness state: congestion avoidance, `srtt_us = 1600000` so
`current_rtt = 200000`us. -/
def c2WitnessState : tcp_sock := ⟨10, 4, 0, 20, 1000, 1600000, 0, true⟩

/-- C2 witness at `acked = 3`: ratio 20, scaled acked 60. -/
theorem c2_fair_basic_ratio_witness :
    (rtt_ratio c2WitnessState =
        fair_current_rtt c2WitnessState / BASE_RTT_US ∧
      fair_scaled_acked c2WitnessState 3 =
        3 * (fair_current_rtt c2WitnessState / BASE_RTT_US) ∧
      tcp_fair_cong_avoid c2WitnessState 0 3 =
        Option.map clampCwnd
          (tcp_cong_avoid_ai c2WitnessState c2WitnessState.snd_cwnd
            (3 * (fair_current_rtt c2WitnessState / BASE_RTT_US))) ∧
      (fair_current_rtt c2WitnessState = 200000 →
        rtt_ratio c2WitnessState = 20)) ∧
    rtt_ratio c2WitnessState = 20 ∧
    fair_scaled_acked c2WitnessState 3 = 60 := by
  refine ⟨c2_fair_basic_ratio c2WitnessState 0 3
    (by decide) (by decide) (by decide) (by decide), by decide, by decide⟩

/-- C3: in the ABC congestion-avoidance phase (window-limited,
`cwnd > ssthresh`, `target = cwnd * mss` not wrapping): if
`bytes_acked ≥ target` the new window is `min(cwnd + bytes_acked/target,
cwnd_clamp)` with every other field — including the credit counter
`snd_cwnd_cnt` — unchanged (the division remainder is discarded, not carried
forward); otherwise the call delegates to the standard credit accumulator
`tcp_cong_avoid_ai`, clamped. -/
theorem c3_abc_byte_credit (tp : tcp_sock) (ack acked : Nat)
    (hlim : tp.is_cwnd_limited = true)
    (hca : tp.snd_ssthresh < tp.snd_cwnd)
    (hmss : tp.mss_cache ≠ 0)
    (hnw1 : tp.snd_cwnd * tp.mss_cache < u32mod)
    (hnw2 : tp.snd_cwnd + acked / (tp.snd_cwnd * tp.mss_cache) < u32mod) :
    (tp.snd_cwnd * tp.mss_cache ≤ acked →
      tcp_reno_abc_cong_avoid tp ack acked =
        some { tp with
          snd_cwnd := min (tp.snd_cwnd + acked / (tp.snd_cwnd * tp.mss_cache)) tp.snd_cwnd_clamp }) ∧
    (acked < tp.snd_cwnd * tp.mss_cache →
      tcp_reno_abc_cong_avoid tp ack acked =
        Option.map clampCwnd (tcp_cong_avoid_ai tp tp.snd_cwnd acked)) := by
  have htv : abc_target tp = tp.snd_cwnd * tp.mss_cache := by
    unfold abc_target
    exact wrap_eq_of_lt hnw1
  constructor
  · intro hge
    unfold tcp_reno_abc_cong_avoid
    rw [if_neg (by simp [hlim]), if_neg (Nat.not_le.mpr hca), htv, if_pos hge,
      if_neg (Nat.mul_ne_zero (by omega) hmss), wrap_eq_of_lt hnw2]
    rfl
  · intro hlt
    unfold tcp_reno_abc_cong_avoid
    rw [if_neg (by simp [hlim]), if_neg (Nat.not_le.mpr hca), htv,
      if_neg (Nat.not_le.mpr hlt)]

/-- The C3 witness state: `cwnd = 10`, `mss = 1000` (so `target = 10000`),
credit counter 7, clamp 1000. -/
def c3WitnessState : tcp_sock := ⟨10, 5, 7, 1000, 1000, 0, 0, true⟩

/-- C3 witness at `bytes_acked = 25000`: the window grows by exactly
`25000 / 10000 = 2` (to 12) and the credit counter stays 7 — the 5000-byte
remainder is discarded. -/
theorem c3_abc_byte_credit_witness :
    ((c3WitnessState.snd_cwnd * c3WitnessState.mss_cache ≤ 25000 →
      tcp_reno_abc_cong_avoid c3WitnessState 0 25000 =
        some { c3WitnessState with
          snd_cwnd := min (c3WitnessState.snd_cwnd + 25000 / (c3WitnessState.snd_cwnd * c3WitnessState.mss_cache)) c3WitnessState.snd_cwnd_clamp }) ∧
     (25000 < c3WitnessState.snd_cwnd * c3WitnessState.mss_cache →
      tcp_reno_abc_cong_avoid c3WitnessState 0 25000 =
        Option.map clampCwnd
          (tcp_cong_avoid_ai c3WitnessState c3WitnessState.snd_cwnd 25000))) ∧
    Option.map tcp_sock.snd_cwnd (tcp_reno_abc_cong_avoid c3WitnessState 0 25000) =
      some 12 ∧
    Option.map tcp_sock.snd_cwnd_cnt
      (tcp_reno_abc_cong_avoid c3WitnessState 0 25000) = some 7 := by
  refine ⟨c3_abc_byte_credit c3WitnessState 0 25000
    (by decide) (by decide) (by decide) (by decide) (by decide), by decide, by decide⟩

/-- C5: in the ABC slow-start phase (window-limited, `cwnd ≤ ssthresh`,
`mss ≠ 0`), the increment is `bytes_acked / mss` floored to a minimum of 1,
and the new window is that sum clamped; every other field is unchanged. -/
theorem c5_abc_slow_start_floor (tp : tcp_sock) (ack acked : Nat)
    (hlim : tp.is_cwnd_limited = true)
    (hss : tp.snd_cwnd ≤ tp.snd_ssthresh)
    (hmss : tp.mss_cache ≠ 0)
    (hnw : tp.snd_cwnd + max (acked / tp.mss_cache) 1 < u32mod) :
    abc_ss_delta tp acked = max (acked / tp.mss_cache) 1 ∧
    tcp_reno_abc_cong_avoid tp ack acked =
      some { tp with
        snd_cwnd := min (tp.snd_cwnd + max (acked / tp.mss_cache) 1) tp.snd_cwnd_clamp } := by
  have hd : abc_ss_delta tp acked = max (acked / tp.mss_cache) 1 := by
    unfold abc_ss_delta
    rcases Nat.eq_zero_or_pos (acked / tp.mss_cache) with h0 | h0
    · rw [if_pos h0, h0]
      omega
    · rw [if_neg (Nat.pos_iff_ne_zero.mp h0)]
      omega
  refine ⟨hd, ?_⟩
  unfold tcp_reno_abc_cong_avoid
  rw [if_neg (by simp [hlim]), if_pos hss, if_neg hmss, hd, wrap_eq_of_lt hnw]
  rfl

/-- The C5 witness state: slow start with `mss = 1460`. -/
def c5WitnessState : tcp_sock := ⟨5, 10, 0, 100, 1460, 0, 0, true⟩

/-- C5 witness at `bytes_acked = 100 < mss`: the window grows by exactly 1
(from 5 to 6), not 0. -/
theorem c5_abc_slow_start_floor_witness :
    (abc_ss_delta c5WitnessState 100 =
        max (100 / c5WitnessState.mss_cache) 1 ∧
      tcp_reno_abc_cong_avoid c5WitnessState 0 100 =
        some { c5WitnessState with
          snd_cwnd := min (c5WitnessState.snd_cwnd + max (100 / c5WitnessState.mss_cache) 1) c5WitnessState.snd_cwnd_clamp }) ∧
    Option.map tcp_sock.snd_cwnd (tcp_reno_abc_cong_avoid c5WitnessState 0 100) =
      some 6 := by
  refine ⟨c5_abc_slow_start_floor c5WitnessState 0 100
    (by decide) (by decide) (by decide) (by decide), by decide⟩
